import Mathlib

/-!
Verification of the langwitch difficulty-ordering core (`src/main.rs`).

Shallow embedding of the Rust prototype in `src/main.rs`.  Conventions:

* Rust `HashSet` values become `Finset`; `HashMap<K, V>` becomes a total
  function `K → V` together with an explicit key `Finset` wherever the code
  distinguishes a missing key from a present-but-empty value (the size index
  and the facet index), since `get(..).unwrap()` panics exactly on missing
  keys.
* Iteration order over a Rust `HashMap`/`HashSet` is unspecified, so every
  loop that observes it takes the order as an explicit oracle (`RoundOrders`):
  a duplicate-free list enumerating the iterated key set.  A round whose
  oracle does not enumerate the set it stands for is rejected (`none`).
* `Option.none` produced by a round models an `Option::unwrap` panic
  (process abort) in the reference; the Rust functions return no error value.
* `f64` weights are modelled as `ℚ`; every weight arising here is a quotient
  of small naturals, exactly representable, and only order comparisons are
  consumed.  The guard `weight > max_weight && len > 0` makes the
  division-by-zero case (`NaN` in Rust, `0` in `ℚ`) unselectable either way.
-/

namespace Langwitch

/-- A flashcard (`struct Gem`): display sides keyed by position and the
mutable set of facet names the learner does not yet know. -/
structure Gem where
  sides : List (Nat × String)
  unknown_facets : Finset String

/-- The aggregate (`struct GemCollection`).  `gems` is the id → gem map as a
total function over the explicit id set `gem_ids`; `size_keys` and
`facet_keys` record which keys are present in the two index `HashMap`s
(needed because `get(..).unwrap()` panics on an absent key, not on an empty
bucket).  The behaviour-free `unused_thing : &str` field is omitted. -/
structure GemCollection where
  gems : Nat → Gem
  gem_ids : Finset Nat
  known_facets : Finset String
  gems_by_size_index : Nat → Finset Nat
  size_keys : Finset Nat
  gems_by_facet_index : String → Finset Nat
  facet_keys : Finset String
  total_frequency_list : String → Nat

/-- Model of `create_frequency_hashmap_from_facets_of_n2_gem_indices`: for each facet,
the number of gems among `gem_indices_for_n2` whose unknown set contains it.
A facet absent from the Rust map is modelled as count `0` (the code treats an
absent entry as contributing nothing to a weight). -/
def create_frequency_hashmap_from_facets_of_n2_gem_indices
    (c : GemCollection) (gem_indices_for_n2 : Finset Nat) : String → Nat :=
  fun facet =>
    (gem_indices_for_n2.filter (fun i => facet ∈ (c.gems i).unknown_facets)).card

/-- The weight the selector computes for one gem: the sum of the frequency
scores of its unknown facets divided by how many unknown facets it has
(`weight /= gem.unknown_facets.len() as f64`). -/
def gem_weight (g : Gem) (frequency_hashmap : String → Nat) : ℚ :=
  (∑ facet ∈ g.unknown_facets, (frequency_hashmap facet : ℚ)) /
    (g.unknown_facets.card : ℚ)

/-- The selector's scan over the candidate gems, in the (oracle-supplied)
iteration order, threading the accumulator `(top_gem_facets, max_weight)`;
the update guard is the source's `weight > max_weight && len > 0`. -/
def choose_loop (gems : Nat → Gem) (frequency_hashmap : String → Nat) :
    List Nat → Finset String × ℚ → Finset String × ℚ
  | [], acc => acc
  | gem_index :: rest, acc =>
    let g := gems gem_index
    let weight := gem_weight g frequency_hashmap
    if weight > acc.2 ∧ 0 < g.unknown_facets.card then
      choose_loop gems frequency_hashmap rest (g.unknown_facets, weight)
    else
      choose_loop gems frequency_hashmap rest acc

/-- One non-recursive pass of the selector body: the `top_gem_facets` left by
scanning all candidates starting from `(∅, 0.0)`. -/
def choose_pass (gems : Nat → Gem) (order : List Nat)
    (frequency_hashmap : String → Nat) : Finset String :=
  (choose_loop gems frequency_hashmap order (∅, 0)).1

/-- Model of `choose_max_n1_gem_facets_by_frequency_hashmap`.  The Rust function, when
the pass yields an empty set, calls itself with `total_frequency_list` in
place of the given table — with no depth guard, so when the baseline pass is
also empty it recurses forever.  The recursion is therefore modelled with
explicit `fuel`; `none` means the computation has not returned within `fuel`
self-calls (and, as proved below, never returns when both passes are empty).
`minimum_viable_hashmap_number` is the source's unused parameter, kept for
signature fidelity. -/
def choose_max_n1_gem_facets_by_frequency_hashmap (fuel : Nat)
    (gems : Nat → Gem) (gem_indices_for_n1 : List Nat)
    (frequency_hashmap total_frequency_list : String → Nat)
    (minimum_viable_hashmap_number : Nat) : Option (Finset String) :=
  match fuel with
  | 0 => none
  | fuel + 1 =>
    let top_gem_facets := choose_pass gems gem_indices_for_n1 frequency_hashmap
    if top_gem_facets = ∅ then
      choose_max_n1_gem_facets_by_frequency_hashmap fuel gems gem_indices_for_n1
        total_frequency_list total_frequency_list minimum_viable_hashmap_number
    else some top_gem_facets

/-- The keys of the size index whose buckets are nonempty, in the iteration
order given by `keyOrder` (`keys().filter(|k| ...len() > 0)`). -/
def non_empty_keys (keyOrder : List Nat) (sizeIndex : Nat → Finset Nat) :
    List Nat :=
  keyOrder.filter (fun k => 0 < (sizeIndex k).card)

/-- Step A as written in the source: `min_number` is the minimum of the
nonempty keys, `min_number_2` is the minimum of that same filtered iterator
after `skip(1)` — i.e. with the FIRST nonempty key in iteration order
removed, not with the minimum removed.  Each `min()` result is `unwrap`ped,
so `none` models the panic when either iterator is exhausted. -/
def select_min_classes (keyOrder : List Nat) (sizeIndex : Nat → Finset Nat) :
    Option (Nat × Nat) :=
  match (non_empty_keys keyOrder sizeIndex).min?,
      ((non_empty_keys keyOrder sizeIndex).drop 1).min? with
  | some min_number, some min_number_2 => some (min_number, min_number_2)
  | _, _ => none

/-- The iteration-order oracle for one round: the key iteration order of
`gems_by_size_index`, the iteration order of the candidate id set
(bucket `min_number`), and the iteration order of the impacted id set. -/
structure RoundOrders where
  keyOrder : List Nat
  selOrder : List Nat
  impactOrder : List Nat

/-- Step E for a single impacted gem, exactly in source order: remove the id
from the bucket of its CURRENT facet count `n` (panic — `none` — if key `n`
is absent), insert it into bucket `n + 1` (creating that key), and only then
assign `unknown_facets \ top_gem_facets`.  Note the re-filing uses `n + 1`,
not the post-removal count. -/
def refile_gem (top_gem_facets : Finset String) (c : GemCollection)
    (gem_index : Nat) : Option GemCollection :=
  if gem_index ∈ c.gem_ids then
    let g := c.gems gem_index
    let n := g.unknown_facets.card
    if n ∈ c.size_keys then
      some { c with
        gems_by_size_index := fun k =>
          if k = n then (c.gems_by_size_index n).erase gem_index
          else if k = n + 1 then insert gem_index (c.gems_by_size_index (n + 1))
          else c.gems_by_size_index k,
        size_keys := insert (n + 1) c.size_keys,
        gems := fun j =>
          if j = gem_index then
            { g with unknown_facets := g.unknown_facets \ top_gem_facets }
          else c.gems j }
    else none
  else none

/-- Step E over all impacted gems in the oracle-supplied iteration order. -/
def refile_all (top_gem_facets : Finset String) :
    List Nat → GemCollection → Option GemCollection
  | [], c => some c
  | gem_index :: rest, c =>
    match refile_gem top_gem_facets c gem_index with
    | none => none
    | some c2 => refile_all top_gem_facets rest c2

/-- The final loop of a round: for every nominated facet, retain in its facet
index entry only the ids outside the impacted set
(`retain(|i| !top_gem_indices.contains(i))`). -/
def strip_facet_index (top_gem_facets : Finset String)
    (top_gem_indices : Finset Nat) (c : GemCollection) : GemCollection :=
  { c with gems_by_facet_index := fun facet =>
      if facet ∈ top_gem_facets then
        (c.gems_by_facet_index facet).filter (fun i => i ∉ top_gem_indices)
      else c.gems_by_facet_index facet }

/-- One round (one iteration of the `for _ in 0..200` body): Step A on the
key oracle, the Step-B frequency table over bucket `min_number_2`, Step C via
the selector on bucket `min_number` (the source passes `2` as the unused
parameter; fuel `2` is exact, since the recursion either returns within two
passes or never), Step D's union over the nominated facets' index entries
(`get(facet).unwrap()` panics — `none` — if a facet key is absent), and
Step E.  Returns the mutated collection and the nominated facet set; `none`
models a panic or selector divergence.  An oracle list that does not
enumerate the set it stands for is rejected as `none`. -/
def round (o : RoundOrders) (c : GemCollection) :
    Option (GemCollection × Finset String) :=
  if o.keyOrder.Nodup ∧ o.keyOrder.toFinset = c.size_keys then
    match select_min_classes o.keyOrder c.gems_by_size_index with
    | none => none
    | some (min_number, min_number_2) =>
      let gem_indices_for_n1 := c.gems_by_size_index min_number
      let gem_indices_for_n2 := c.gems_by_size_index min_number_2
      let frequency_hashmap :=
        create_frequency_hashmap_from_facets_of_n2_gem_indices c gem_indices_for_n2
      if o.selOrder.Nodup ∧ o.selOrder.toFinset = gem_indices_for_n1 then
        match choose_max_n1_gem_facets_by_frequency_hashmap 2 c.gems o.selOrder
            frequency_hashmap c.total_frequency_list 2 with
        | none => none
        | some top_gem_facets =>
          if top_gem_facets ⊆ c.facet_keys then
            let top_gem_indices := top_gem_facets.biUnion c.gems_by_facet_index
            if o.impactOrder.Nodup ∧ o.impactOrder.toFinset = top_gem_indices then
              match refile_all top_gem_facets o.impactOrder c with
              | none => none
              | some c2 =>
                some (strip_facet_index top_gem_facets top_gem_indices c2,
                  top_gem_facets)
            else none
          else none
      else none
  else none

/-- The round loop: runs one round per oracle entry, collecting the nominated
facet sets; a panicking round aborts the whole run (`none`). -/
def run_rounds : List RoundOrders → GemCollection →
    Option (GemCollection × List (Finset String))
  | [], c => some (c, [])
  | o :: os, c =>
    match round o c with
    | none => none
    | some (c2, top) =>
      match run_rounds os c2 with
      | none => none
      | some (c3, tops) => some (c3, top :: tops)

/-- Model of `index_all_gems_by_number`: for every gem with a positive unknown count,
insert its id into the bucket for that count (`entry(..).or_insert(..)`
creates the key); for each of its unknown facets, insert its id into that
facet's index entry.  Insertion into an existing bucket is set-insertion, so
the model unions onto whatever is already there (the reference runs this
twice on an unmutated collection; `HashSet::insert` makes that idempotent).
Finally `total_frequency_list` is computed over `0..gems.len()`. -/
def index_all_gems_by_number (c : GemCollection) : GemCollection :=
  { c with
    gems_by_size_index := fun k =>
      c.gems_by_size_index k ∪
        c.gem_ids.filter (fun i =>
          (c.gems i).unknown_facets.card = k ∧ 0 < (c.gems i).unknown_facets.card),
    size_keys := c.size_keys ∪
      (c.gem_ids.filter (fun i => 0 < (c.gems i).unknown_facets.card)).image
        (fun i => (c.gems i).unknown_facets.card),
    gems_by_facet_index := fun facet =>
      c.gems_by_facet_index facet ∪
        c.gem_ids.filter (fun i => facet ∈ (c.gems i).unknown_facets),
    facet_keys := c.facet_keys ∪
      c.gem_ids.biUnion (fun i => (c.gems i).unknown_facets),
    total_frequency_list :=
      create_frequency_hashmap_from_facets_of_n2_gem_indices c
        (Finset.range c.gem_ids.card) }

/-- Model of `display_all_gems_in_order_of_difficulty`: reset `known_facets` to the
empty set, rebuild the indices, then run the round loop.  The reference runs
exactly 200 rounds (`for _ in 0..200`), i.e. an oracle list of length 200;
the model takes the per-round oracle list as the parameter. -/
def display_all_gems_in_order_of_difficulty (os : List RoundOrders)
    (c : GemCollection) : Option (GemCollection × List (Finset String)) :=
  run_rounds os (index_all_gems_by_number { c with known_facets := ∅ })

/-- Model of `read_gems_from_file`, after the external file read: the contents are the
raw bytes; `&contents[0..1000]` in the debug print panics (`none`) whenever
the contents are shorter than 1000 bytes, before any parsing happens.  The
serde parse is an external collaborator and is passed in as `parse`; on
success the gems are keyed by their position (`enumerate`).  (For contents of
at least 1000 bytes the reference can still panic on a non-UTF-8-boundary
byte 1000; that case is outside every claim and not modelled.) -/
def read_gems_from_file (parse : List UInt8 → Except String (List Gem))
    (contents : List UInt8) : Option (Except String GemCollection) :=
  if contents.length < 1000 then none
  else
    match parse contents with
    | Except.error e => some (Except.error e)
    | Except.ok gems =>
      some (Except.ok
        { gems := fun i => gems.getD i ⟨[], ∅⟩,
          gem_ids := Finset.range gems.length,
          known_facets := ∅,
          gems_by_size_index := fun _ => ∅,
          size_keys := ∅,
          gems_by_facet_index := fun _ => ∅,
          facet_keys := ∅,
          total_frequency_list := fun _ => 0 })

/-! Concrete instances used by the claim theorems and witnesses:
the spec's three-gem end-to-end scenario (`g0:{x,y}, g1:{x}, g2:{y,z}`) and
smaller fixtures for the Step-A, selector and fallback claims. -/

def scenario_gems : Nat → Gem := fun i =>
  if i = 0 then ⟨[], {"x", "y"}⟩
  else if i = 1 then ⟨[], {"x"}⟩
  else if i = 2 then ⟨[], {"y", "z"}⟩
  else ⟨[], ∅⟩

def scenario_collection : GemCollection :=
  { gems := scenario_gems, gem_ids := {0, 1, 2}, known_facets := ∅,
    gems_by_size_index := fun _ => ∅, size_keys := ∅,
    gems_by_facet_index := fun _ => ∅, facet_keys := ∅,
    total_frequency_list := fun _ => 0 }

def scenario_orders : RoundOrders := ⟨[1, 2], [1], [0, 1]⟩

def scenario_ready : GemCollection := index_all_gems_by_number scenario_collection

def scenario_freq : String → Nat :=
  create_frequency_hashmap_from_facets_of_n2_gem_indices scenario_ready
    (scenario_ready.gems_by_size_index 2)

def scenario_refiled : GemCollection :=
  (refile_all {"x"} [0, 1] scenario_ready).get (by decide)

def scenario_final : GemCollection :=
  strip_facet_index {"x"} (({"x"} : Finset String).biUnion scenario_ready.gems_by_facet_index)
    scenario_refiled

def c2_size_index : Nat → Finset Nat :=
  fun k => if k = 1 then {0} else if k = 2 then {1} else ∅

def c4_collection : GemCollection :=
  { gems := fun i => if i = 0 then ⟨[], {"a"}⟩ else ⟨[], ∅⟩,
    gem_ids := {0}, known_facets := ∅,
    gems_by_size_index := fun _ => ∅, size_keys := ∅,
    gems_by_facet_index := fun _ => ∅, facet_keys := ∅,
    total_frequency_list := fun _ => 0 }

def c4_orders : RoundOrders := ⟨[1], [0], []⟩

def exGems : Nat → Gem := fun i => if i = 1 then ⟨[], {"a", "b"}⟩ else ⟨[], {"a"}⟩
def exFreq : String → Nat := fun f => if f = "a" then 5 else if f = "b" then 1 else 0

def wGems : Nat → Gem := fun _ => ⟨[], {"a"}⟩
def wBase : String → Nat := fun _ => 1

def tGems : Nat → Gem := fun i => if i = 1 then ⟨[], {"a"}⟩ else ⟨[], {"b"}⟩
def tFreq : String → Nat := fun _ => 1

/-! Selector lemmas: behaviour of the scan `choose_loop` and the pass. -/

/-- A zero-count gem has weight zero (`0 / 0 = 0` in `ℚ`; the Rust `NaN` is
likewise never selected, thanks to the `len > 0` guard). -/
theorem gem_weight_card_pos (g : Gem) (freq : String → Nat)
    (h : 0 < gem_weight g freq) : 0 < g.unknown_facets.card := by
  by_contra hc
  have hz : g.unknown_facets = ∅ := by
    simpa using Finset.card_eq_zero.mp (Nat.eq_zero_of_not_pos hc)
  rw [gem_weight, hz] at h
  simp at h

theorem choose_loop_stay (gems : Nat → Gem) (freq : String → Nat) :
    ∀ (l : List Nat) (acc : Finset String × ℚ),
      (∀ i ∈ l, ¬(gem_weight (gems i) freq > acc.2 ∧
        0 < (gems i).unknown_facets.card)) →
      choose_loop gems freq l acc = acc := by
  intro l
  induction l with
  | nil => intro acc _; rfl
  | cons a rest ih =>
    intro acc h
    have ha := h a (List.mem_cons_self a rest)
    simp only [choose_loop, if_neg ha]
    exact ih acc (fun i hi => h i (List.mem_cons_of_mem a hi))

theorem choose_loop_snd_mono (gems : Nat → Gem) (freq : String → Nat) :
    ∀ (l : List Nat) (acc : Finset String × ℚ),
      acc.2 ≤ (choose_loop gems freq l acc).2 := by
  intro l
  induction l with
  | nil => intro acc; exact le_rfl
  | cons a rest ih =>
    intro acc
    simp only [choose_loop]
    by_cases hg : gem_weight (gems a) freq > acc.2 ∧
        0 < (gems a).unknown_facets.card
    · rw [if_pos hg]
      exact le_trans (le_of_lt hg.1) (ih ((gems a).unknown_facets, _))
    · rw [if_neg hg]
      exact ih acc

theorem choose_loop_snd_gt (gems : Nat → Gem) (freq : String → Nat) :
    ∀ (l : List Nat) (acc : Finset String × ℚ), 0 ≤ acc.2 →
      (∃ i ∈ l, acc.2 < gem_weight (gems i) freq) →
      acc.2 < (choose_loop gems freq l acc).2 := by
  intro l
  induction l with
  | nil => intro acc _ h; simp at h
  | cons a rest ih =>
    intro acc hnn h
    simp only [choose_loop]
    by_cases hg : gem_weight (gems a) freq > acc.2 ∧
        0 < (gems a).unknown_facets.card
    · rw [if_pos hg]
      exact lt_of_lt_of_le hg.1 (choose_loop_snd_mono gems freq rest _)
    · rw [if_neg hg]
      rcases h with ⟨i, hi, hwi⟩
      rcases List.mem_cons.mp hi with hia | hir
      · exfalso
        subst hia
        exact hg ⟨hwi, gem_weight_card_pos _ _ (lt_of_le_of_lt hnn hwi)⟩
      · exact ih acc hnn ⟨i, hir, hwi⟩

theorem choose_loop_fst_ne (gems : Nat → Gem) (freq : String → Nat) :
    ∀ (l : List Nat) (acc : Finset String × ℚ),
      (0 < acc.2 → acc.1 ≠ ∅) →
      (0 < (choose_loop gems freq l acc).2 →
        (choose_loop gems freq l acc).1 ≠ ∅) := by
  intro l
  induction l with
  | nil => intro acc h; exact h
  | cons a rest ih =>
    intro acc h
    simp only [choose_loop]
    by_cases hg : gem_weight (gems a) freq > acc.2 ∧
        0 < (gems a).unknown_facets.card
    · rw [if_pos hg]
      exact ih _ (fun _ => Finset.card_pos.mp hg.2 |>.ne_empty)
    · rw [if_neg hg]
      exact ih acc h

theorem choose_loop_bound (gems : Nat → Gem) (freq : String → Nat) (B : ℚ) :
    ∀ (l : List Nat) (acc : Finset String × ℚ), acc.2 < B →
      (∀ i ∈ l, gem_weight (gems i) freq < B) →
      (choose_loop gems freq l acc).2 < B := by
  intro l
  induction l with
  | nil => intro acc h _; exact h
  | cons a rest ih =>
    intro acc hacc h
    simp only [choose_loop]
    by_cases hg : gem_weight (gems a) freq > acc.2 ∧
        0 < (gems a).unknown_facets.card
    · rw [if_pos hg]
      exact ih _ (h a (List.mem_cons_self a rest))
        (fun i hi => h i (List.mem_cons_of_mem a hi))
    · rw [if_neg hg]
      exact ih acc hacc (fun i hi => h i (List.mem_cons_of_mem a hi))

theorem choose_loop_append (gems : Nat → Gem) (freq : String → Nat) :
    ∀ (l1 l2 : List Nat) (acc : Finset String × ℚ),
      choose_loop gems freq (l1 ++ l2) acc =
        choose_loop gems freq l2 (choose_loop gems freq l1 acc) := by
  intro l1
  induction l1 with
  | nil => intro l2 acc; rfl
  | cons a rest ih =>
    intro l2 acc
    simp only [List.cons_append, choose_loop]
    by_cases hg : gem_weight (gems a) freq > acc.2 ∧
        0 < (gems a).unknown_facets.card
    · rw [if_pos hg, if_pos hg]
      exact ih l2 _
    · rw [if_neg hg, if_neg hg]
      exact ih l2 acc

/-- If every candidate in the order has weight zero, the pass returns the
empty set (the accumulator is never updated from `(∅, 0.0)`). -/
theorem choose_pass_all_zero (gems : Nat → Gem) (order : List Nat)
    (freq : String → Nat)
    (h : ∀ i ∈ order, gem_weight (gems i) freq = 0) :
    choose_pass gems order freq = ∅ := by
  unfold choose_pass
  rw [choose_loop_stay gems freq order (∅, 0)
    (fun i hi => by
      rw [h i hi]
      rintro ⟨hgt, -⟩
      exact absurd hgt (by norm_num))]

/-- If some candidate in the order has positive weight, the pass returns a
nonempty set. -/
theorem choose_pass_ne_empty (gems : Nat → Gem) (order : List Nat)
    (freq : String → Nat)
    (h : ∃ i ∈ order, 0 < gem_weight (gems i) freq) :
    choose_pass gems order freq ≠ ∅ := by
  unfold choose_pass
  exact choose_loop_fst_ne gems freq order (∅, 0) (by simp)
    (choose_loop_snd_gt gems freq order (∅, 0) le_rfl h)

/-- First-maximum characterisation of the pass: the gem `j` whose weight is
positive, strictly above every earlier candidate's and at least every later
candidate's, contributes its whole unknown-facet set as the result — ties are
kept by the FIRST gem encountered in the iteration order. -/
theorem choose_pass_first_max (gems : Nat → Gem) (freq : String → Nat)
    (l1 l2 : List Nat) (j : Nat)
    (hpos : 0 < gem_weight (gems j) freq)
    (hbefore : ∀ i ∈ l1, gem_weight (gems i) freq < gem_weight (gems j) freq)
    (hafter : ∀ i ∈ l2, gem_weight (gems i) freq ≤ gem_weight (gems j) freq) :
    choose_pass gems (l1 ++ j :: l2) freq = (gems j).unknown_facets := by
  unfold choose_pass
  rw [choose_loop_append]
  have hacc1 : (choose_loop gems freq l1 (∅, 0)).2 < gem_weight (gems j) freq :=
    choose_loop_bound gems freq _ l1 (∅, 0) hpos hbefore
  simp only [choose_loop]
  rw [if_pos ⟨hacc1, gem_weight_card_pos _ _ hpos⟩]
  rw [choose_loop_stay gems freq l2 _
    (fun i hi => by
      rintro ⟨hgt, -⟩
      exact absurd (hafter i hi) (not_le.mpr hgt))]

/-! Frame lemmas: what a round does and does not touch. -/

theorem refile_gem_spec (top : Finset String) (c : GemCollection) (i : Nat)
    (c2 : GemCollection) (h : refile_gem top c i = some c2) :
    (∀ p, (c2.gems p).unknown_facets ⊆ (c.gems p).unknown_facets) ∧
      c2.known_facets = c.known_facets := by
  simp only [refile_gem] at h
  split at h
  · split at h
    · cases h
      refine ⟨fun p => ?_, rfl⟩
      by_cases hp : p = i
      · simp only [hp, if_pos rfl]
        exact Finset.sdiff_subset
      · simp only [if_neg hp]
        exact subset_rfl
    · exact absurd h (by simp)
  · exact absurd h (by simp)

theorem refile_all_spec (top : Finset String) :
    ∀ (l : List Nat) (c c2 : GemCollection),
      refile_all top l c = some c2 →
      (∀ p, (c2.gems p).unknown_facets ⊆ (c.gems p).unknown_facets) ∧
        c2.known_facets = c.known_facets := by
  intro l
  induction l with
  | nil =>
    intro c c2 h
    cases h
    exact ⟨fun p => subset_rfl, rfl⟩
  | cons i rest ih =>
    intro c c2 h
    simp only [refile_all] at h
    split at h
    · exact absurd h (by simp)
    · next c3 hg =>
      obtain ⟨hsub, hknown⟩ := refile_gem_spec top c i c3 hg
      obtain ⟨hsub2, hknown2⟩ := ih c3 c2 h
      exact ⟨fun p => (hsub2 p).trans (hsub p), hknown2.trans hknown⟩

theorem round_spec (o : RoundOrders) (c : GemCollection)
    (r : GemCollection × Finset String) (h : round o c = some r) :
    (∀ p, (r.1.gems p).unknown_facets ⊆ (c.gems p).unknown_facets) ∧
      r.1.known_facets = c.known_facets := by
  simp only [round] at h
  split at h
  · split at h
    · exact absurd h (by simp)
    · split at h
      · split at h
        · exact absurd h (by simp)
        · split at h
          · split at h
            · split at h
              · exact absurd h (by simp)
              · next c2 hre =>
                cases h
                obtain ⟨hsub, hknown⟩ := refile_all_spec _ _ _ _ hre
                exact ⟨hsub, hknown⟩
            · exact absurd h (by simp)
          · exact absurd h (by simp)
      · exact absurd h (by simp)
  · exact absurd h (by simp)

theorem run_rounds_spec :
    ∀ (os : List RoundOrders) (c : GemCollection)
      (r : GemCollection × List (Finset String)), run_rounds os c = some r →
      (∀ p, (r.1.gems p).unknown_facets ⊆ (c.gems p).unknown_facets) ∧
        r.1.known_facets = c.known_facets := by
  intro os
  induction os with
  | nil =>
    intro c r h
    cases h
    exact ⟨fun p => subset_rfl, rfl⟩
  | cons o rest ih =>
    intro c r h
    simp only [run_rounds] at h
    split at h
    · exact absurd h (by simp)
    · next c2 top hround =>
      split at h
      · exact absurd h (by simp)
      · next c3 tops hrest =>
        cases h
        obtain ⟨hsub, hknown⟩ := round_spec o c (c2, top) hround
        obtain ⟨hsub2, hknown2⟩ := ih c2 (c3, tops) hrest
        exact ⟨fun p => (hsub2 p).trans (hsub p), hknown2.trans hknown⟩

/-! Evaluation of the concrete instances. -/

theorem scenario_gem1 : scenario_ready.gems 1 = ⟨[], {"x"}⟩ := rfl

theorem scenario_freq_x : scenario_freq ("x") = 1 := by decide

theorem scenario_weight1 : gem_weight (scenario_ready.gems 1) scenario_freq = 1 := by
  rw [scenario_gem1, gem_weight]
  simp only [Finset.sum_singleton, Finset.card_singleton, Nat.cast_one, div_one]
  rw [show scenario_freq ("x") = 1 from scenario_freq_x]
  norm_num

theorem scenario_pass : choose_pass scenario_ready.gems [1] scenario_freq = {"x"} := by
  unfold choose_pass
  simp only [choose_loop]
  rw [if_pos ⟨by rw [scenario_weight1]; norm_num, by rw [scenario_gem1]; decide⟩]
  rw [scenario_gem1]

theorem scenario_choose :
    choose_max_n1_gem_facets_by_frequency_hashmap 2 scenario_ready.gems [1]
      (create_frequency_hashmap_from_facets_of_n2_gem_indices scenario_ready
        (scenario_ready.gems_by_size_index 2))
      scenario_ready.total_frequency_list 2 = some {"x"} := by
  have h : choose_pass scenario_ready.gems [1]
      (create_frequency_hashmap_from_facets_of_n2_gem_indices scenario_ready
        (scenario_ready.gems_by_size_index 2)) = {"x"} := scenario_pass
  simp only [choose_max_n1_gem_facets_by_frequency_hashmap, h]
  rw [if_neg (by decide)]

theorem scenario_round_eq :
    round scenario_orders scenario_ready = some (scenario_final, {"x"}) := by
  have h0 : ([1, 2] : List Nat).Nodup ∧
      ([1, 2] : List Nat).toFinset = scenario_ready.size_keys := by decide
  have hsel : select_min_classes [1, 2] scenario_ready.gems_by_size_index
      = some (1, 2) := by decide
  have hsel2 : ([1] : List Nat).Nodup ∧
      ([1] : List Nat).toFinset = scenario_ready.gems_by_size_index 1 := by decide
  have hsub : ({"x"} : Finset String) ⊆ scenario_ready.facet_keys := by decide
  have himp : ([0, 1] : List Nat).Nodup ∧
      ([0, 1] : List Nat).toFinset =
        ({"x"} : Finset String).biUnion scenario_ready.gems_by_facet_index := by
    decide
  have hs : (refile_all {"x"} [0, 1] scenario_ready).isSome := by decide
  have hre : refile_all {"x"} [0, 1] scenario_ready = some scenario_refiled :=
    (Option.some_get hs).symm
  simp only [round, scenario_orders, hsel, scenario_choose, hre, h0, hsel2, hsub,
    himp, if_true, and_self, eq_self_iff_true]
  rfl

theorem scenario_display_eq :
    display_all_gems_in_order_of_difficulty [scenario_orders] scenario_collection
      = some (scenario_final, [{"x"}]) := by
  have hinit : index_all_gems_by_number { scenario_collection with known_facets := ∅ }
      = scenario_ready := rfl
  simp only [display_all_gems_in_order_of_difficulty, hinit, run_rounds,
    scenario_round_eq]

theorem scenario_run_eq :
    run_rounds [scenario_orders] scenario_ready = some (scenario_final, [{"x"}]) :=
  scenario_display_eq

theorem scenario_c1_facts :
    (scenario_final.gems 1).unknown_facets = ∅ ∧
      1 ∈ scenario_final.gems_by_size_index 2 ∧
      1 ∉ scenario_final.gems_by_size_index 0 := by decide

theorem c2_test : select_min_classes [2, 1] c2_size_index = some (1, 1) ∧
    select_min_classes [1, 2] c2_size_index = some (1, 2) := ⟨by decide, by decide⟩

theorem c4_test :
    display_all_gems_in_order_of_difficulty [c4_orders] c4_collection = none :=
  Option.not_isSome_iff_eq_none.mp (by decide)

theorem ex_weight1 : gem_weight (exGems 1) exFreq = 3 := by
  have h1 : (exGems 1).unknown_facets = ({"a", "b"} : Finset String) := rfl
  rw [gem_weight, h1, Finset.sum_insert (by decide), Finset.sum_singleton]
  rw [show exFreq ("a") = 5 from rfl, show exFreq ("b") = 1 from rfl]
  rw [show ({"a", "b"} : Finset String).card = 2 from by decide]
  norm_num

theorem ex_weight2 : gem_weight (exGems 2) exFreq = 5 := by
  have h1 : (exGems 2).unknown_facets = ({"a"} : Finset String) := rfl
  rw [gem_weight, h1, Finset.sum_singleton]
  rw [show exFreq ("a") = 5 from rfl]
  rw [show ({"a"} : Finset String).card = 1 from by decide]
  norm_num



/-! Claim theorems. -/

/-- C1.  REFUTED ON THE CODE (bucket-advance defect): after Step E of the
first round on the three-gem scenario (`g0:{x,y}, g1:{x}, g2:{y,z}`), gem 1
has an empty unknown-facet set yet sits in size bucket 2, not bucket 0 — the
round re-files an impacted gem under its previous count plus one, so the
size index does not match true unknown-facet counts. -/
theorem claim_C1 :
    display_all_gems_in_order_of_difficulty [scenario_orders] scenario_collection
        = some (scenario_final, [{"x"}]) ∧
      (scenario_final.gems 1).unknown_facets = ∅ ∧
      1 ∈ scenario_final.gems_by_size_index 2 ∧
      1 ∉ scenario_final.gems_by_size_index 0 :=
  ⟨scenario_display_eq, scenario_c1_facts⟩

/-- C2.  REFUTED ON THE CODE: with nonempty buckets at counts 1 and 2, the
key iteration order `[2, 1]` (legitimate for a `HashMap`) makes `skip(1)`
drop the key 2 rather than the minimum, so `min_number_2 = 1 = min_number`
instead of the next-smallest distinct count 2; the order `[1, 2]` yields 2.
Step A therefore does not compute the second-smallest distinct nonempty
count. -/
theorem claim_C2 :
    select_min_classes [2, 1] c2_size_index = some (1, 1) ∧
      select_min_classes [1, 2] c2_size_index = some (1, 2) :=
  c2_test

/-- C3.  REFUTED ON THE CODE: when the pass over the given frequency table
and the pass over the baseline table are both empty, the selector never
returns — for every recursion depth (fuel) the computation is still running
(`none`), modelling the guard-free infinite recursion at the source's
self-call. -/
theorem claim_C3 (gems : Nat → Gem) (order : List Nat)
    (baseline : String → Nat) (minv : Nat)
    (hbase : choose_pass gems order baseline = ∅) :
    ∀ (fuel : Nat) (freq : String → Nat), choose_pass gems order freq = ∅ →
      choose_max_n1_gem_facets_by_frequency_hashmap fuel gems order freq
        baseline minv = none := by
  intro fuel
  induction fuel with
  | zero => intro freq _; rfl
  | succ n ih =>
    intro freq hfreq
    simp only [choose_max_n1_gem_facets_by_frequency_hashmap, hfreq, if_pos]
    exact ih baseline hbase

theorem claim_C3_witness :
    choose_max_n1_gem_facets_by_frequency_hashmap 3 (fun _ => ⟨[], ∅⟩) []
      (fun _ => 0) (fun _ => 0) 2 = none :=
  claim_C3 (fun _ => ⟨[], ∅⟩) [] (fun _ => 0) 2 rfl 3 (fun _ => 0) rfl

/-- C4.  REFUTED ON THE CODE: on a collection with a single nonempty size
bucket (one gem with one facet), the run aborts (`none`, modelling the
`unwrap` panic on the second `min()`), rather than returning any structured
"ordering complete" result — the reference's signature has no error type at
all. -/
theorem claim_C4 :
    display_all_gems_in_order_of_difficulty [c4_orders] c4_collection = none :=
  c4_test

/-- C5.  Selector weighting and choice: a candidate `j` whose weight (sum of
frequency scores of its unknown facets divided by their number) is positive
and strictly above every other candidate's contributes its whole
unknown-facet set as the result; zero-facet gems can never be selected (the
`len > 0` guard).  The witness instantiates the spec's concrete example. -/
theorem claim_C5 (gems : Nat → Gem) (freq : String → Nat) (l1 l2 : List Nat)
    (j : Nat) (hpos : 0 < gem_weight (gems j) freq)
    (hmax : ∀ i ∈ l1 ++ l2,
      gem_weight (gems i) freq < gem_weight (gems j) freq) :
    choose_pass gems (l1 ++ j :: l2) freq = (gems j).unknown_facets :=
  choose_pass_first_max gems freq l1 l2 j hpos
    (fun i hi => hmax i (List.mem_append_left l2 hi))
    (fun i hi => le_of_lt (hmax i (List.mem_append_right l1 hi)))

theorem claim_C5_witness :
    gem_weight (exGems 1) exFreq = 3 ∧ gem_weight (exGems 2) exFreq = 5 ∧
      choose_pass exGems [1, 2] exFreq = {"a"} := by
  refine ⟨ex_weight1, ex_weight2, ?_⟩
  have h := claim_C5 exGems exFreq [1] [] 2
    (by rw [ex_weight2]; norm_num)
    (by
      intro i hi
      have : i = 1 := by simpa using hi
      subst this
      rw [ex_weight1, ex_weight2]
      norm_num)
  simpa using h

/-- C6.  Fallback: if every facet of every candidate is absent from the given
table (score 0) while some candidate facet scores positively in the baseline
table, the selector returns the (nonempty) result of the pass over the
baseline table, not an empty set. -/
theorem claim_C6 (gems : Nat → Gem) (order : List Nat)
    (freq baseline : String → Nat) (minv : Nat)
    (habsent : ∀ i ∈ order, ∀ facet ∈ (gems i).unknown_facets, freq facet = 0)
    (hbase : ∃ i ∈ order, ∃ facet ∈ (gems i).unknown_facets,
      0 < baseline facet) :
    choose_max_n1_gem_facets_by_frequency_hashmap 2 gems order freq baseline
        minv = some (choose_pass gems order baseline) ∧
      choose_pass gems order baseline ≠ ∅ := by
  have hzero : ∀ i ∈ order, gem_weight (gems i) freq = 0 := by
    intro i hi
    have hcast : ∀ f ∈ (gems i).unknown_facets, ((freq f : ℚ)) = 0 :=
      fun f hf => by simp [habsent i hi f hf]
    rw [gem_weight, Finset.sum_congr rfl hcast]
    simp
  have hempty : choose_pass gems order freq = ∅ :=
    choose_pass_all_zero gems order freq hzero
  have hpos : ∃ i ∈ order, 0 < gem_weight (gems i) baseline := by
    obtain ⟨i, hi, f, hf, hbf⟩ := hbase
    refine ⟨i, hi, ?_⟩
    have hsum : ((baseline f : ℚ)) ≤
        ∑ facet ∈ (gems i).unknown_facets, (baseline facet : ℚ) :=
      @Finset.single_le_sum String ℚ _ (fun facet => (baseline facet : ℚ))
        (gems i).unknown_facets (fun x _ => by positivity) f hf
    have hf0 : (0 : ℚ) < (baseline f : ℚ) := by exact_mod_cast hbf
    rw [gem_weight]
    apply div_pos (lt_of_lt_of_le hf0 hsum)
    exact_mod_cast Finset.card_pos.mpr ⟨f, hf⟩
  have hne : choose_pass gems order baseline ≠ ∅ :=
    choose_pass_ne_empty gems order baseline hpos
  refine ⟨?_, hne⟩
  simp only [choose_max_n1_gem_facets_by_frequency_hashmap, hempty, if_pos]
  rw [if_neg hne]

theorem claim_C6_witness :
    choose_max_n1_gem_facets_by_frequency_hashmap 2 wGems [0] (fun _ => 0)
        wBase 2 = some (choose_pass wGems [0] wBase) ∧
      choose_pass wGems [0] wBase ≠ ∅ :=
  claim_C6 wGems [0] (fun _ => 0) wBase 2 (fun _ _ _ _ => rfl)
    ⟨0, by simp, "a", by decide, by decide⟩

/-- C7.  Monotonic shrink: a successful round only removes facets from gems
(Step E assigns `unknown_facets \ top_gem_facets`), so each gem's
unknown-facet count is non-increasing across every round and across any
whole run, and — being a `Finset` cardinality — is never negative. -/
theorem claim_C7 :
    (∀ (o : RoundOrders) (c : GemCollection)
      (r : GemCollection × Finset String), round o c = some r → ∀ i,
      (r.1.gems i).unknown_facets.card ≤ (c.gems i).unknown_facets.card ∧
        0 ≤ (r.1.gems i).unknown_facets.card) ∧
    (∀ (os : List RoundOrders) (c : GemCollection)
      (r : GemCollection × List (Finset String)), run_rounds os c = some r →
      ∀ i, (r.1.gems i).unknown_facets.card ≤
        (c.gems i).unknown_facets.card) := by
  constructor
  · intro o c r h i
    exact ⟨Finset.card_le_card ((round_spec o c r h).1 i), Nat.zero_le _⟩
  · intro os c r h i
    exact Finset.card_le_card ((run_rounds_spec os c r h).1 i)

theorem claim_C7_witness :
    ((scenario_final.gems 0).unknown_facets.card ≤
        (scenario_ready.gems 0).unknown_facets.card ∧
      0 ≤ (scenario_final.gems 0).unknown_facets.card) ∧
      (scenario_final.gems 1).unknown_facets.card ≤
        (scenario_ready.gems 1).unknown_facets.card :=
  ⟨claim_C7.1 scenario_orders scenario_ready (scenario_final, {"x"})
      scenario_round_eq 0,
    claim_C7.2 [scenario_orders] scenario_ready (scenario_final, [{"x"}])
      scenario_run_eq 1⟩

/-- C8.  Determinism: with the iteration orders (the only nondeterminism the
Rust `HashMap`/`HashSet` admit) fixed as explicit oracles, the run is a pure
function — two runs on the same input and oracles return the same nominated
sequence; and the selector keeps the FIRST gem encountered on ties (a later
candidate with merely equal weight never displaces it). -/
theorem claim_C8 :
    (∀ (os : List RoundOrders) (c : GemCollection)
      (r1 r2 : Option (GemCollection × List (Finset String))),
      run_rounds os c = r1 → run_rounds os c = r2 → r1 = r2) ∧
    (∀ (gems : Nat → Gem) (freq : String → Nat) (l1 l2 : List Nat) (j : Nat),
      0 < gem_weight (gems j) freq →
      (∀ i ∈ l1, gem_weight (gems i) freq < gem_weight (gems j) freq) →
      (∀ i ∈ l2, gem_weight (gems i) freq ≤ gem_weight (gems j) freq) →
      choose_pass gems (l1 ++ j :: l2) freq = (gems j).unknown_facets) := by
  constructor
  · intro os c r1 r2 h1 h2
    rw [← h1, ← h2]
  · intro gems freq l1 l2 j hpos hb ha
    exact choose_pass_first_max gems freq l1 l2 j hpos hb ha

theorem t_weight1 : gem_weight (tGems 1) tFreq = 1 := by
  have h1 : (tGems 1).unknown_facets = ({"a"} : Finset String) := rfl
  rw [gem_weight, h1, Finset.sum_singleton]
  norm_num [tFreq]

theorem t_weight2 : gem_weight (tGems 2) tFreq = 1 := by
  have h1 : (tGems 2).unknown_facets = ({"b"} : Finset String) := rfl
  rw [gem_weight, h1, Finset.sum_singleton]
  norm_num [tFreq]

theorem claim_C8_witness :
    run_rounds [] scenario_collection = run_rounds [] scenario_collection ∧
      choose_pass tGems [1, 2] tFreq = {"a"} := by
  constructor
  · exact claim_C8.1 [] scenario_collection _ _ rfl rfl
  · have h := claim_C8.2 tGems tFreq [] [2] 1
      (by rw [t_weight1]; norm_num)
      (by intro i hi; simp at hi)
      (by
        intro i hi
        have : i = 2 := by simpa using hi
        subst this
        rw [t_weight1, t_weight2])
    simpa using h

/-- C9.  Frame on `known_facets`: the display run resets `known_facets` to
the empty set before the loop, and no round writes to it, so whenever a run
returns, `known_facets` is still empty (and each individual round leaves it
untouched). -/
theorem claim_C9 :
    (∀ (o : RoundOrders) (c : GemCollection)
      (r : GemCollection × Finset String), round o c = some r →
      r.1.known_facets = c.known_facets) ∧
    (∀ (os : List RoundOrders) (c : GemCollection)
      (r : GemCollection × List (Finset String)),
      display_all_gems_in_order_of_difficulty os c = some r →
      r.1.known_facets = ∅) := by
  constructor
  · intro o c r h
    exact (round_spec o c r h).2
  · intro os c r h
    have h2 := (run_rounds_spec os
      (index_all_gems_by_number { c with known_facets := ∅ }) r h).2
    rw [h2]
    rfl

theorem claim_C9_witness :
    scenario_final.known_facets = scenario_ready.known_facets ∧
      scenario_final.known_facets = ∅ :=
  ⟨claim_C9.1 scenario_orders scenario_ready (scenario_final, {"x"})
      scenario_round_eq,
    claim_C9.2 [scenario_orders] scenario_collection (scenario_final, [{"x"}])
      scenario_display_eq⟩

/-- C10.  For any parser and any file contents shorter than 1000 bytes —
valid gem JSON included — `read_gems_from_file` panics (`none`) at the
unconditional `&contents[0..1000]` slice, before parsing, instead of
returning its declared `Result` error. -/
theorem claim_C10 (parse : List UInt8 → Except String (List Gem))
    (contents : List UInt8) (h : contents.length < 1000) :
    read_gems_from_file parse contents = none := by
  simp only [read_gems_from_file, if_pos h]

theorem claim_C10_witness :
    read_gems_from_file (fun _ => Except.ok []) [] = none :=
  claim_C10 (fun _ => Except.ok []) [] (by norm_num)

end Langwitch
